import Mathlib

/-!
Verification of the request-lifecycle and batch-composition core of the NEO
LLM inference server (`swiftllm/structs.py`).

Shallow embedding conventions:
- Python ints are modelled as `Int` (or `Nat` where the source value is a
  length/count that is only ever assigned from lengths), Python floats (the
  predictor's time estimates) as `ℚ`, Python lists as `List` with
  `append`/`pop()` acting on the tail.
- `asyncio.Queue` is modelled as the list of token ids enqueued so far,
  `asyncio.Event` as a `Bool` flag.
- Python `assert` failures and `IndexError` on popping an empty list are
  modelled with `Except`/`Option`.
-/

namespace SwiftLLM

/-- Modelled from the spec: the `PerfPredictor` capability interface of
`swiftllm/perfpredictor.py` (that file is not part of the given sources;
only its query interface is in scope, spec section 4.4).  Each operation
returns a real-valued time estimate, modelled as a rational. -/
structure PerfPredictor where
  get_pref_T : Int → ℚ
  get_gdec_T : Int → ℚ
  get_linr_T : Int → ℚ
  get_cdec_T : Int → Int → ℚ
  get_lnch_T : ℚ

/-- Modelled from the spec: `ZeroPerfPredictor` returns 0 for every query. -/
def ZeroPerfPredictor : PerfPredictor :=
  { get_pref_T := fun _ => 0
    get_gdec_T := fun _ => 0
    get_linr_T := fun _ => 0
    get_cdec_T := fun _ _ => 0
    get_lnch_T := 0 }

/-- A (queuing, processing, or finished) request in the system
(`Request` in `structs.py`).  `output_q` holds the token ids enqueued via
`put_nowait` (each `StepOutput` also carries a back-reference to the request
itself, which a value-level embedding does not repeat); `finished_event`
is the `asyncio.Event`. -/
structure Request where
  prompt_token_ids : List Int
  prompt_len : Nat
  output_len : Nat
  max_output_len : Nat
  output_q : List Int
  finished_event : Bool
  request_id : Int
  output_token_ids : List Int
  deriving DecidableEq, Repr

/-- `Request.seq_len` property. -/
def Request.seq_len (r : Request) : Nat :=
  r.prompt_len + r.output_len

/-- `Request.is_finished`. -/
def Request.is_finished (r : Request) : Bool :=
  r.output_len == r.max_output_len

/-- `Request.get_ids`. -/
def Request.get_ids (reqs : List Request) : List Int :=
  reqs.map (fun req => req.request_id)

/-- `Request.get_lens`. -/
def Request.get_lens (reqs : List Request) : List Nat :=
  reqs.map (fun req => req.seq_len)

/-- `Request.get_input_tokens`: concatenated input tokens for the model
forward pass (`prompt_token_ids` when nothing was generated yet, else the
Python slice `output_token_ids[-1:]`). -/
def Request.get_input_tokens (reqs : List Request) : List Int :=
  (reqs.map (fun req =>
    if req.output_len == 0 then req.prompt_token_ids
    else req.output_token_ids.drop (req.output_token_ids.length - 1))).flatten

/-- The per-request body of the loop in `Request.update_output`: increment
`output_len`, append the token, enqueue it, and set the finished event when
the request is now finished. -/
def Request.update_one (r : Request) (tok : Int) : Request :=
  let r' : Request :=
    { r with
      output_len := r.output_len + 1
      output_token_ids := r.output_token_ids ++ [tok]
      output_q := r.output_q ++ [tok] }
  if r'.is_finished then { r' with finished_event := true } else r'

/-- `Request.update_output`: the length `assert` precedes the mutation loop
in the source, so on a length mismatch no request has been touched; the
embedding returns the post-states of all requests together with the list of
newly finished requests (the loop appends exactly the updated requests that
satisfy `is_finished`, in order). -/
def Request.update_output (reqs : List Request) (output_toks : List Int) :
    Except String (List Request × List Request) :=
  if reqs.length = output_toks.length then
    let updated := (reqs.zip output_toks).map (fun rt => rt.1.update_one rt.2)
    Except.ok (updated, updated.filter (fun req => req.is_finished))
  else
    Except.error "Number of requests and output tokens do not match"

/-- The dictionary produced by `Request.__getstate__`. -/
structure RequestState where
  prompt_token_ids : List Int
  output_token_ids : List Int
  prompt_len : Nat
  output_len : Nat
  request_id : Int
  deriving DecidableEq, Repr

/-- `Request.__getstate__`: the restricted serialization view. -/
def Request.getstate (r : Request) : RequestState :=
  { prompt_token_ids := if r.output_len == 0 then r.prompt_token_ids else []
    output_token_ids :=
      if r.output_len > 0 then r.output_token_ids.drop (r.output_token_ids.length - 1)
      else []
    prompt_len := r.prompt_len
    output_len := r.output_len
    request_id := r.request_id }

/-- `Request.__setstate__`: assigns exactly the five transferred attributes
on the deserialization target.  (In Python the target is a bare instance
whose remaining attributes — `max_output_len`, `output_q`,
`finished_event` — are never initialized; the embedding makes the target
explicit as `base`, whose remaining fields stand for whatever the bare
object would answer for them.) -/
def Request.setstate (base : Request) (state : RequestState) : Request :=
  { base with
    prompt_token_ids := state.prompt_token_ids
    output_token_ids := state.output_token_ids
    prompt_len := state.prompt_len
    output_len := state.output_len
    request_id := state.request_id }

/-- `BatchPerfData`: incremental cost accumulator for one batch. -/
structure BatchPerfData where
  predictor : PerfPredictor
  x : Int
  s : Int
  n_g : Int
  x_c : Int
  n_c : Int
  pref_T : ℚ
  gdec_T : ℚ
  lnch_T : ℚ

/-- `BatchPerfData.__init__`. -/
def BatchPerfData.init (p : PerfPredictor) : BatchPerfData :=
  { predictor := p, x := 0, s := 0, n_g := 0, x_c := 0, n_c := 0
    pref_T := 0, gdec_T := 0, lnch_T := p.get_lnch_T }

/-- `BatchPerfData.add_pref`. -/
def BatchPerfData.add_pref (d : BatchPerfData) (prompt_len : Int) : BatchPerfData :=
  { d with
    x := d.x + 1
    s := d.s + prompt_len
    pref_T := d.pref_T + d.predictor.get_pref_T prompt_len }

/-- `BatchPerfData.pop_pref`. -/
def BatchPerfData.pop_pref (d : BatchPerfData) (prompt_len : Int) : BatchPerfData :=
  { d with
    x := d.x - 1
    s := d.s - prompt_len
    pref_T := d.pref_T - d.predictor.get_pref_T prompt_len }

/-- `BatchPerfData.add_gdec`: recomputes `gdec_T` from the new aggregate. -/
def BatchPerfData.add_gdec (d : BatchPerfData) (seq_len : Int) : BatchPerfData :=
  { d with
    x := d.x + 1
    s := d.s + 1
    n_g := d.n_g + seq_len
    gdec_T := d.predictor.get_gdec_T (d.n_g + seq_len) }

/-- `BatchPerfData.add_cdec`. -/
def BatchPerfData.add_cdec (d : BatchPerfData) (seq_len : Int) : BatchPerfData :=
  { d with
    x := d.x + 1
    s := d.s + 1
    x_c := d.x_c + 1
    n_c := d.n_c + seq_len }

/-- `BatchPerfData.pop_cdec`. -/
def BatchPerfData.pop_cdec (d : BatchPerfData) (seq_len : Int) : BatchPerfData :=
  { d with
    x := d.x - 1
    s := d.s - 1
    x_c := d.x_c - 1
    n_c := d.n_c - seq_len }

/-- `BatchPerfData.linr_T` property. -/
def BatchPerfData.linr_T (d : BatchPerfData) : ℚ :=
  d.predictor.get_linr_T d.s

/-- `BatchPerfData.cdec_T` property. -/
def BatchPerfData.cdec_T (d : BatchPerfData) : ℚ :=
  d.predictor.get_cdec_T d.x_c d.n_c

/-- `BatchPerfData.gpu_time` property. -/
def BatchPerfData.gpu_time (d : BatchPerfData) : ℚ :=
  d.linr_T + d.pref_T + d.gdec_T

/-- `BatchPerfData.cpu_time` property. -/
def BatchPerfData.cpu_time (d : BatchPerfData) : ℚ :=
  d.cdec_T + d.lnch_T

/-- `SubBatch` in its composition phase: the four category lists plus the
cost accumulator. -/
structure SubBatch where
  gprf_reqs : List Request
  cprf_reqs : List Request
  gdec_reqs : List Request
  cdec_reqs : List Request
  perfdata : BatchPerfData

/-- `SubBatch.__init__`. -/
def SubBatch.init (p : PerfPredictor) : SubBatch :=
  { gprf_reqs := [], cprf_reqs := [], gdec_reqs := [], cdec_reqs := []
    perfdata := BatchPerfData.init p }

/-- `SubBatch.__len__`. -/
def SubBatch.length (b : SubBatch) : Int :=
  b.perfdata.x

/-- `SubBatch.add_pref`. -/
def SubBatch.add_pref (b : SubBatch) (req : Request) (is_gpu : Bool) : SubBatch :=
  if is_gpu then
    { b with
      gprf_reqs := b.gprf_reqs ++ [req]
      perfdata := b.perfdata.add_pref (req.prompt_len : Int) }
  else
    { b with
      cprf_reqs := b.cprf_reqs ++ [req]
      perfdata := b.perfdata.add_pref (req.prompt_len : Int) }

/-- `SubBatch.pop_pref`: `is_gpu = not self.cprf_reqs`, then pop from
`gprf_reqs` if `is_gpu` else from `cprf_reqs`; returns `(req, is_gpu)`.
`none` models the `IndexError` of popping when both lists are empty. -/
def SubBatch.pop_pref (b : SubBatch) : Option (SubBatch × Request × Bool) :=
  if b.cprf_reqs.isEmpty then
    match b.gprf_reqs.getLast? with
    | none => none
    | some req =>
      some ({ b with
              gprf_reqs := b.gprf_reqs.dropLast
              perfdata := b.perfdata.pop_pref (req.prompt_len : Int) },
            req, true)
  else
    match b.cprf_reqs.getLast? with
    | none => none
    | some req =>
      some ({ b with
              cprf_reqs := b.cprf_reqs.dropLast
              perfdata := b.perfdata.pop_pref (req.prompt_len : Int) },
            req, false)

/-- `SubBatch.add_gdec`. -/
def SubBatch.add_gdec (b : SubBatch) (req : Request) : SubBatch :=
  { b with
    gdec_reqs := b.gdec_reqs ++ [req]
    perfdata := b.perfdata.add_gdec (req.seq_len : Int) }

/-- `SubBatch.add_cdec`. -/
def SubBatch.add_cdec (b : SubBatch) (req : Request) : SubBatch :=
  { b with
    cdec_reqs := b.cdec_reqs ++ [req]
    perfdata := b.perfdata.add_cdec (req.seq_len : Int) }

/-- `SubBatch.pop_cdec`; `none` models the `IndexError` on an empty list. -/
def SubBatch.pop_cdec (b : SubBatch) : Option SubBatch :=
  match b.cdec_reqs.getLast? with
  | none => none
  | some req =>
    some { b with
           cdec_reqs := b.cdec_reqs.dropLast
           perfdata := b.perfdata.pop_cdec (req.seq_len : Int) }

/-- `SubBatch.get_num_prefs`. -/
def SubBatch.get_num_prefs (b : SubBatch) : Nat :=
  b.gprf_reqs.length + b.cprf_reqs.length

/-- Modelled from the spec: of `LlamaModelConfig` (in
`swiftllm/model_config.py`, not part of the given sources) this core
consumes only the number of key/value attention heads. -/
structure LlamaModelConfig where
  num_kv_heads : Nat

/-- The adaptive `seq_block_size` loop of `SubBatch.set_model_forward_args`:
starting from the seed, halve while
`num_kv_heads*(sum_gdec_toks/seq_block_size) < 1024`,
`seq_block_size//2 >= 64` and
`max_gdec_toks / (seq_block_size//2) <= 128`
(Python true division modelled on `ℚ`, floor division on `Nat`). -/
def adapt_seq_block_size (num_kv_heads sum_gdec_toks max_gdec_toks : Nat)
    (seq_block_size : Nat) : Nat :=
  if h : (num_kv_heads : ℚ) * ((sum_gdec_toks : ℚ) / (seq_block_size : ℚ)) < 1024 ∧
      64 ≤ seq_block_size / 2 ∧
      (max_gdec_toks : ℚ) / ((seq_block_size / 2 : Nat) : ℚ) ≤ 128 then
    adapt_seq_block_size num_kv_heads sum_gdec_toks max_gdec_toks (seq_block_size / 2)
  else
    seq_block_size
  termination_by seq_block_size
  decreasing_by
    exact Nat.div_lt_self
      (Nat.lt_of_lt_of_le (by norm_num) (Nat.le_trans h.2.1 (Nat.div_le_self _ 2)))
      one_lt_two

/-- The frozen descriptor produced by `SubBatch.set_model_forward_args`
(the attributes that persist after the categorized lists and the
`BatchPerfData` are deleted). -/
structure FinalizedBatch where
  batch_size : Int
  iter_width : Int
  num_cprfs : Nat
  num_gprfs : Nat
  num_gdecs : Nat
  num_cdecs : Nat
  num_prefs : Nat
  num_prgds : Nat
  all_reqs : List Request
  seq_ids_list : List Int
  seq_lens_list : List Nat
  sum_pref_toks : Nat
  sum_prgd_toks : Nat
  max_pref_toks : Nat
  seq_block_size : Nat
  num_seq_blocks : Nat

/-- `SubBatch.set_model_forward_args`: one-way finalization.  The `assert`
that every request id is non-negative is modelled by `Except.error`.
Python slices `seq_lens_list[:num_prefs]` and
`seq_lens_list[num_prefs:num_prgds]` become `take`/`drop`, and
`max(..., default=0)` becomes `foldr max 0`. -/
def SubBatch.set_model_forward_args (b : SubBatch) (model_config : LlamaModelConfig) :
    Except String FinalizedBatch :=
  let batch_size := b.perfdata.x
  let iter_width := b.perfdata.s
  let num_cprfs := b.cprf_reqs.length
  let num_gprfs := b.gprf_reqs.length
  let num_gdecs := b.gdec_reqs.length
  let num_cdecs := b.cdec_reqs.length
  let num_prefs := num_cprfs + num_gprfs
  let num_prgds := num_prefs + num_gdecs
  let all_reqs := b.cprf_reqs ++ b.gprf_reqs ++ b.gdec_reqs ++ b.cdec_reqs
  if all_reqs.all (fun req => 0 ≤ req.request_id) then
    let seq_ids_list := Request.get_ids all_reqs
    let seq_lens_list := Request.get_lens all_reqs
    let sum_pref_toks := (seq_lens_list.take num_prefs).sum
    let sum_prgd_toks := sum_pref_toks + num_gdecs
    let max_pref_toks := (seq_lens_list.take num_prefs).foldr max 0
    let sum_gdec_toks := ((seq_lens_list.drop num_prefs).take num_gdecs).sum
    let max_gdec_toks := ((seq_lens_list.drop num_prefs).take num_gdecs).foldr max 0
    let seq_block_size :=
      adapt_seq_block_size model_config.num_kv_heads sum_gdec_toks max_gdec_toks 2048
    Except.ok
      { batch_size := batch_size
        iter_width := iter_width
        num_cprfs := num_cprfs
        num_gprfs := num_gprfs
        num_gdecs := num_gdecs
        num_cdecs := num_cdecs
        num_prefs := num_prefs
        num_prgds := num_prgds
        all_reqs := all_reqs
        seq_ids_list := seq_ids_list
        seq_lens_list := seq_lens_list
        sum_pref_toks := sum_pref_toks
        sum_prgd_toks := sum_prgd_toks
        max_pref_toks := max_pref_toks
        seq_block_size := seq_block_size
        num_seq_blocks := (max_gdec_toks + seq_block_size - 1) / seq_block_size }
  else
    Except.error "Request ID not set"

/-- One composition-phase operation on a `SubBatch`. -/
inductive SBOp where
  | addPref (req : Request) (is_gpu : Bool)
  | popPref
  | addGdec (req : Request)
  | addCdec (req : Request)
  | popCdec

/-- Apply one operation; `none` when a pop hits an empty list. -/
def SBStep (b : SubBatch) : SBOp → Option SubBatch
  | SBOp.addPref req g => some (b.add_pref req g)
  | SBOp.popPref => (b.pop_pref).map (fun t => t.1)
  | SBOp.addGdec req => some (b.add_gdec req)
  | SBOp.addCdec req => some (b.add_cdec req)
  | SBOp.popCdec => b.pop_cdec

/-- Run a sequence of operations from a fresh `SubBatch`. -/
def SBExec (p : PerfPredictor) (ops : List SBOp) : Option SubBatch :=
  ops.foldl (fun ob op => ob.bind (fun b => SBStep b op)) (some (SubBatch.init p))

/-- A concrete prefill request with prompt length 3 (GPU-placed in the
scenarios below). -/
def reqP3 : Request :=
  { prompt_token_ids := [11, 12, 13], prompt_len := 3, output_len := 0
    max_output_len := 10, output_q := [], finished_event := false
    request_id := 1, output_token_ids := [] }

/-- A concrete prefill request with prompt length 5. -/
def reqP5 : Request :=
  { prompt_token_ids := [21, 22, 23, 24, 25], prompt_len := 5, output_len := 0
    max_output_len := 10, output_q := [], finished_event := false
    request_id := 2, output_token_ids := [] }

/-- A concrete decode-phase request (prompt length 4, two tokens already
generated). -/
def reqD : Request :=
  { prompt_token_ids := [31, 32, 33, 34], prompt_len := 4, output_len := 2
    max_output_len := 10, output_q := [41, 42], finished_event := false
    request_id := 3, output_token_ids := [41, 42] }

/-- Claim C1 (amended): `BatchPerfData.add_pref`/`pop_pref` and
`add_cdec`/`pop_cdec` pairs restore the accumulator exactly (all running
totals and `pref_T`); through `SubBatch`, `add_cdec`/`pop_cdec` pairs
restore the whole sub-batch, and `add_pref`/`pop_pref` pairs restore it
whenever the added request is CPU-placed or the CPU-prefill list is empty
(otherwise `pop_pref` removes a CPU-prefill request instead of the one
just added). -/
theorem add_pop_round_trip (d : BatchPerfData) (l : Int) (b : SubBatch)
    (r : Request) (g : Bool) :
    (d.add_pref l).pop_pref l = d ∧
    (d.add_cdec l).pop_cdec l = d ∧
    (b.add_cdec r).pop_cdec = some b ∧
    ((g = false ∨ b.cprf_reqs = []) →
      (b.add_pref r g).pop_pref = some (b, r, g)) := by
  refine ⟨?_, ?_, ?_, ?_⟩
  · cases d
    simp [BatchPerfData.add_pref, BatchPerfData.pop_pref]
  · cases d
    simp [BatchPerfData.add_cdec, BatchPerfData.pop_cdec]
  · cases b with
    | mk gp cp gd cd pd =>
      cases pd
      simp [SubBatch.add_cdec, SubBatch.pop_cdec, List.getLast?_concat,
        List.dropLast_concat, BatchPerfData.add_cdec, BatchPerfData.pop_cdec]
  · rintro (rfl | hc)
    · cases b with
      | mk gp cp gd cd pd =>
        cases pd
        simp [SubBatch.add_pref, SubBatch.pop_pref, List.getLast?_concat,
          List.dropLast_concat, BatchPerfData.add_pref, BatchPerfData.pop_pref,
          List.isEmpty_iff]
    · cases g
      · cases b with
        | mk gp cp gd cd pd =>
          cases pd
          simp [SubBatch.add_pref, SubBatch.pop_pref, List.getLast?_concat,
            List.dropLast_concat, BatchPerfData.add_pref, BatchPerfData.pop_pref,
            List.isEmpty_iff]
      · cases b with
        | mk gp cp gd cd pd =>
          cases pd
          simp_all [SubBatch.add_pref, SubBatch.pop_pref, List.getLast?_concat,
            List.dropLast_concat, BatchPerfData.add_pref, BatchPerfData.pop_pref,
            List.isEmpty_iff]

/-- Claim C1, witness: a concrete `add_pref`/`pop_pref` pair through a
fresh `SubBatch` (CPU-prefill list empty) restores it exactly. -/
theorem add_pop_round_trip_witness :
    ((SubBatch.init ZeroPerfPredictor).add_pref reqP3 true).pop_pref =
      some (SubBatch.init ZeroPerfPredictor, reqP3, true) :=
  (add_pop_round_trip (BatchPerfData.init ZeroPerfPredictor) 0
    (SubBatch.init ZeroPerfPredictor) reqP3 true).2.2.2 (Or.inr rfl)

/-- Claim C1, counterexample: on a `SubBatch` whose CPU-prefill list holds
a request of prompt length 3, the stack pair `add_pref` (GPU, prompt
length 5) immediately followed by `pop_pref` leaves the running total `s`
at 5, not at its pre-pair value 3 — `pop_pref` removed the CPU-prefill
request instead of the GPU one just added. -/
theorem add_pop_round_trip_cex :
    ((SubBatch.init ZeroPerfPredictor).add_pref reqP3 false).perfdata.s = 3 ∧
    ((((SubBatch.init ZeroPerfPredictor).add_pref reqP3 false).add_pref reqP5 true).pop_pref).map
      (fun t => t.1.perfdata.s) = some 5 := by
  constructor <;> rfl

/-- Claim C2 (amended): `pop_pref` removes and returns the most recently
added request of the CPU-prefill list unless that list is empty, otherwise
of the GPU-prefill list, together with its placement flag; in particular,
after `add_pref(r1, is_gpu := true)` followed by
`add_pref(r2, is_gpu := false)`, `pop_pref` returns the CPU-placed request
first, and the GPU-placed one only after the CPU-placed one has been
popped. -/
theorem pop_pref_order (b : SubBatch) :
    (b.cprf_reqs ≠ [] →
      ∃ req, b.cprf_reqs.getLast? = some req ∧
        b.pop_pref = some
          ({ b with
             cprf_reqs := b.cprf_reqs.dropLast
             perfdata := b.perfdata.pop_pref (req.prompt_len : Int) }, req, false)) ∧
    (b.cprf_reqs = [] → b.gprf_reqs ≠ [] →
      ∃ req, b.gprf_reqs.getLast? = some req ∧
        b.pop_pref = some
          ({ b with
             gprf_reqs := b.gprf_reqs.dropLast
             perfdata := b.perfdata.pop_pref (req.prompt_len : Int) }, req, true)) := by
  constructor
  · intro hc
    obtain ⟨req, hreq⟩ : ∃ req, b.cprf_reqs.getLast? = some req := by
      cases h : b.cprf_reqs.getLast? with
      | none => exact absurd (List.getLast?_eq_none_iff.mp h) hc
      | some req => exact ⟨req, rfl⟩
    refine ⟨req, hreq, ?_⟩
    unfold SubBatch.pop_pref
    rw [if_neg (by simpa [List.isEmpty_iff] using hc), hreq]
  · intro hc hg
    obtain ⟨req, hreq⟩ : ∃ req, b.gprf_reqs.getLast? = some req := by
      cases h : b.gprf_reqs.getLast? with
      | none => exact absurd (List.getLast?_eq_none_iff.mp h) hg
      | some req => exact ⟨req, rfl⟩
    refine ⟨req, hreq, ?_⟩
    unfold SubBatch.pop_pref
    rw [if_pos (by simp [List.isEmpty_iff, hc]), hreq]

/-- Claim C2, witness: on a concrete `SubBatch` holding one GPU-prefill
and one CPU-prefill request, `pop_pref` removes the CPU one. -/
theorem pop_pref_order_witness :
    ∃ req,
      (((SubBatch.init ZeroPerfPredictor).add_pref reqP3 true).add_pref reqP5 false).cprf_reqs.getLast? =
        some req ∧
      (((SubBatch.init ZeroPerfPredictor).add_pref reqP3 true).add_pref reqP5 false).pop_pref =
        some
          ({ ((SubBatch.init ZeroPerfPredictor).add_pref reqP3 true).add_pref reqP5 false with
             cprf_reqs :=
               ((((SubBatch.init ZeroPerfPredictor).add_pref reqP3 true).add_pref reqP5 false).cprf_reqs).dropLast
             perfdata :=
               ((((SubBatch.init ZeroPerfPredictor).add_pref reqP3 true).add_pref reqP5 false).perfdata).pop_pref
                 (req.prompt_len : Int) }, req, false) :=
  (pop_pref_order
    (((SubBatch.init ZeroPerfPredictor).add_pref reqP3 true).add_pref reqP5 false)).1
    (by decide)

/-- Claim C2, counterexample: after `add_pref(r1, is_gpu := true)` then
`add_pref(r2, is_gpu := false)`, the first `pop_pref` already returns the
CPU-placed request (id 2, flag `false`), not the GPU-placed one. -/
theorem pop_pref_order_cex :
    ((((SubBatch.init ZeroPerfPredictor).add_pref reqP3 true).add_pref reqP5 false).pop_pref).map
      (fun t => (t.2.1.request_id, t.2.2)) = some (2, false) := by
  rfl

/-- The bookkeeping invariant tying `BatchPerfData`'s running totals `x`
and `s` to the four category lists of a `SubBatch`. -/
def SBInv (b : SubBatch) : Prop :=
  b.perfdata.x = ((b.gprf_reqs.length + b.cprf_reqs.length +
    b.gdec_reqs.length + b.cdec_reqs.length : Nat) : Int) ∧
  b.perfdata.s = (((b.gprf_reqs.map Request.prompt_len).sum +
    (b.cprf_reqs.map Request.prompt_len).sum +
    b.gdec_reqs.length + b.cdec_reqs.length : Nat) : Int)

lemma SBInv_init (p : PerfPredictor) : SBInv (SubBatch.init p) := by
  simp [SBInv, SubBatch.init, BatchPerfData.init]

lemma length_sum_of_getLast? {l : List Request} {a : Request}
    (h : l.getLast? = some a) :
    l.length = l.dropLast.length + 1 ∧
    (l.map Request.prompt_len).sum = (l.dropLast.map Request.prompt_len).sum + a.prompt_len := by
  have hsplit := List.dropLast_append_getLast? a h
  constructor
  · conv_lhs => rw [← hsplit]
    simp
  · conv_lhs => rw [← hsplit]
    simp

lemma SBInv_step {b b' : SubBatch} {op : SBOp} (hb : SBInv b)
    (h : SBStep b op = some b') : SBInv b' := by
  obtain ⟨hx, hs⟩ := hb
  cases op with
  | addPref req g =>
    simp only [SBStep, Option.some_inj] at h
    subst h
    cases g <;>
      (constructor <;>
        (simp [SubBatch.add_pref, BatchPerfData.add_pref, hx, hs]; omega))
  | popPref =>
    simp only [SBStep] at h
    unfold SubBatch.pop_pref at h
    by_cases hemp : b.cprf_reqs.isEmpty
    · rw [if_pos hemp] at h
      cases hg : b.gprf_reqs.getLast? with
      | none => rw [hg] at h; simp at h
      | some req =>
        rw [hg] at h
        simp only [Option.map_some', Option.some_inj] at h
        subst h
        obtain ⟨hlen, hsum⟩ := length_sum_of_getLast? hg
        constructor <;> (simp only [BatchPerfData.pop_pref]; omega)
    · rw [if_neg hemp] at h
      cases hg : b.cprf_reqs.getLast? with
      | none => rw [hg] at h; simp at h
      | some req =>
        rw [hg] at h
        simp only [Option.map_some', Option.some_inj] at h
        subst h
        obtain ⟨hlen, hsum⟩ := length_sum_of_getLast? hg
        constructor <;> (simp only [BatchPerfData.pop_pref]; omega)
  | addGdec req =>
    simp only [SBStep, Option.some_inj] at h
    subst h
    constructor <;>
      (simp [SubBatch.add_gdec, BatchPerfData.add_gdec, hx, hs]; omega)
  | addCdec req =>
    simp only [SBStep, Option.some_inj] at h
    subst h
    constructor <;>
      (simp [SubBatch.add_cdec, BatchPerfData.add_cdec, hx, hs]; omega)
  | popCdec =>
    simp only [SBStep] at h
    unfold SubBatch.pop_cdec at h
    cases hg : b.cdec_reqs.getLast? with
    | none => rw [hg] at h; simp at h
    | some req =>
      rw [hg] at h
      simp only [Option.some_inj] at h
      subst h
      obtain ⟨hlen, -⟩ := length_sum_of_getLast? hg
      constructor <;> (simp only [BatchPerfData.pop_cdec]; omega)

lemma foldl_bind_none (ops : List SBOp) :
    ops.foldl (fun ob op => ob.bind (fun x => SBStep x op)) none = none := by
  induction ops with
  | nil => rfl
  | cons op ops ih => simpa using ih

lemma SBExec_fold_inv (ops : List SBOp) :
    ∀ b0 b : SubBatch, SBInv b0 →
      ops.foldl (fun ob op => ob.bind (fun x => SBStep x op)) (some b0) = some b →
      SBInv b := by
  induction ops with
  | nil =>
    intro b0 b h0 h
    simp only [List.foldl_nil, Option.some_inj] at h
    exact h ▸ h0
  | cons op ops ih =>
    intro b0 b h0 h
    simp only [List.foldl_cons, Option.some_bind] at h
    cases hstep : SBStep b0 op with
    | none =>
      rw [hstep, foldl_bind_none] at h
      exact absurd h (by simp)
    | some b1 =>
      rw [hstep] at h
      exact ih b1 b (SBInv_step h0 hstep) h

lemma SBExec_inv {p : PerfPredictor} {ops : List SBOp} {b : SubBatch}
    (h : SBExec p ops = some b) : SBInv b :=
  SBExec_fold_inv ops (SubBatch.init p) b (SBInv_init p) h

/-- Claim C5: for every `SubBatch` reachable from a fresh one through the
add/pop operations (pops succeeding only on non-empty lists), the count
`x` equals the sum of the four category-list lengths (so `len(SubBatch)`
equals it too), and `s` equals the sum of `prompt_len` over all prefill
members plus the number of decode members. -/
theorem subbatch_totals_consistent (p : PerfPredictor) (ops : List SBOp)
    (b : SubBatch) (h : SBExec p ops = some b) :
    SubBatch.length b = b.perfdata.x ∧
    b.perfdata.x = ((b.gprf_reqs.length + b.cprf_reqs.length +
      b.gdec_reqs.length + b.cdec_reqs.length : Nat) : Int) ∧
    b.perfdata.s = (((b.gprf_reqs.map Request.prompt_len).sum +
      (b.cprf_reqs.map Request.prompt_len).sum +
      b.gdec_reqs.length + b.cdec_reqs.length : Nat) : Int) := by
  obtain ⟨hx, hs⟩ := SBExec_inv h
  exact ⟨rfl, hx, hs⟩

/-- Claim C5, witness: a concrete operation sequence (two prefill adds, a
GPU-decode add, a CPU-decode add and its pop) reaches a `SubBatch` whose
`x` is the sum of the category-list lengths. -/
theorem subbatch_totals_consistent_witness :
    ∃ b, SBExec ZeroPerfPredictor
        [SBOp.addPref reqP3 true, SBOp.addPref reqP5 false, SBOp.addGdec reqD,
         SBOp.addCdec reqD, SBOp.popCdec] = some b ∧
      b.perfdata.x = ((b.gprf_reqs.length + b.cprf_reqs.length +
        b.gdec_reqs.length + b.cdec_reqs.length : Nat) : Int) := by
  obtain ⟨b, hb⟩ : ∃ b, SBExec ZeroPerfPredictor
      [SBOp.addPref reqP3 true, SBOp.addPref reqP5 false, SBOp.addGdec reqD,
       SBOp.addCdec reqD, SBOp.popCdec] = some b := ⟨_, rfl⟩
  exact ⟨b, hb, (subbatch_totals_consistent _ _ _ hb).2.1⟩

/-- Claim C3: for every reachable `SubBatch`, finalization concatenates the
four category lists in the fixed order CPU-prefill, GPU-prefill,
GPU-decode, CPU-decode; `all_reqs` has length `num_prgds + num_cdecs`,
which equals the pre-finalization count `x`; and finalization fails
exactly when some request in the list has a negative (never assigned)
`request_id`. -/
theorem finalize_concat_counts (p : PerfPredictor) (ops : List SBOp)
    (b : SubBatch) (cfg : LlamaModelConfig) (h : SBExec p ops = some b) :
    (∀ f, b.set_model_forward_args cfg = Except.ok f →
      f.all_reqs = b.cprf_reqs ++ b.gprf_reqs ++ b.gdec_reqs ++ b.cdec_reqs ∧
      f.all_reqs.length = f.num_prgds + f.num_cdecs ∧
      ((f.num_prgds + f.num_cdecs : Nat) : Int) = b.perfdata.x) ∧
    ((∃ e, b.set_model_forward_args cfg = Except.error e) ↔
      ∃ req ∈ b.cprf_reqs ++ b.gprf_reqs ++ b.gdec_reqs ++ b.cdec_reqs,
        req.request_id < 0) := by
  obtain ⟨hx, -⟩ := SBExec_inv h
  constructor
  · intro f hf
    simp only [SubBatch.set_model_forward_args] at hf
    split at hf
    · injection hf with hf
      subst hf
      refine ⟨rfl, ?_, ?_⟩
      · simp [List.length_append]
        omega
      · simp only []
        omega
    · exact absurd hf (by simp)
  · constructor
    · rintro ⟨e, he⟩
      simp only [SubBatch.set_model_forward_args] at he
      split at he
      · exact absurd he (by simp)
      · rename_i hall
        simp only [List.all_eq_true, decide_eq_true_eq, not_forall] at hall
        obtain ⟨req, hmem, hneg⟩ := hall
        exact ⟨req, hmem, by omega⟩
    · rintro ⟨req, hmem, hneg⟩
      refine ⟨"Request ID not set", ?_⟩
      simp only [SubBatch.set_model_forward_args]
      rw [if_neg ?_]
      simp only [List.all_eq_true, decide_eq_true_eq, not_forall]
      exact ⟨req, hmem, by omega⟩

/-- Claim C3, witness: a concrete reachable `SubBatch` with assigned ids
finalizes successfully into the concatenation of its category lists. -/
theorem finalize_concat_counts_witness :
    ∃ b, SBExec ZeroPerfPredictor
        [SBOp.addPref reqP3 true, SBOp.addPref reqP5 false, SBOp.addGdec reqD] = some b ∧
      ∃ f, b.set_model_forward_args ⟨8⟩ = Except.ok f ∧
        f.all_reqs = b.cprf_reqs ++ b.gprf_reqs ++ b.gdec_reqs ++ b.cdec_reqs := by
  obtain ⟨f, hf⟩ : ∃ f,
      ((((SubBatch.init ZeroPerfPredictor).add_pref reqP3 true).add_pref
          reqP5 false).add_gdec reqD).set_model_forward_args ⟨8⟩ = Except.ok f :=
    ⟨_, rfl⟩
  refine ⟨_, ?_, f, hf, ((finalize_concat_counts ZeroPerfPredictor
    [SBOp.addPref reqP3 true, SBOp.addPref reqP5 false, SBOp.addGdec reqD]
    _ ⟨8⟩ ?_).1 f hf).1⟩ <;> rfl

lemma gdec_slice (b : SubBatch) :
    ((Request.get_lens (b.cprf_reqs ++ b.gprf_reqs ++ b.gdec_reqs ++ b.cdec_reqs)).drop
        (b.cprf_reqs.length + b.gprf_reqs.length)).take b.gdec_reqs.length =
      b.gdec_reqs.map (fun req => req.seq_len) := by
  unfold Request.get_lens
  rw [List.map_append, List.map_append, List.map_append]
  rw [show b.cprf_reqs.length + b.gprf_reqs.length =
    ((b.cprf_reqs.map (fun req => req.seq_len)) ++
      (b.gprf_reqs.map (fun req => req.seq_len))).length by simp]
  rw [List.append_assoc, List.drop_left]
  rw [show b.gdec_reqs.length = (b.gdec_reqs.map (fun req => req.seq_len)).length by simp]
  rw [List.take_left]

lemma adapt_result_bounds (nkv sg mg : Nat) :
    ∀ sbs : Nat, (∃ k, k ≤ 11 ∧ sbs = 2 ^ k ∧ 64 ≤ sbs) →
      ∃ k, k ≤ 11 ∧ adapt_seq_block_size nkv sg mg sbs = 2 ^ k ∧
        64 ≤ adapt_seq_block_size nkv sg mg sbs ∧
        adapt_seq_block_size nkv sg mg sbs ≤ sbs := by
  intro sbs
  induction sbs using Nat.strong_induction_on with
  | _ sbs ih =>
    rintro ⟨k, hk11, hpow, h64⟩
    rw [adapt_seq_block_size]
    split
    · rename_i hcond
      have h2 : 64 ≤ sbs / 2 := hcond.2.1
      have hk0 : k ≠ 0 := by
        rintro rfl
        simp at hpow
        omega
      have hdiv : sbs / 2 = 2 ^ (k - 1) := by
        rcases Nat.exists_eq_succ_of_ne_zero hk0 with ⟨k', rfl⟩
        rw [hpow, pow_succ, Nat.mul_div_cancel _ (by norm_num)]
        simp
      have hlt : sbs / 2 < sbs := Nat.div_lt_self (by omega) one_lt_two
      obtain ⟨k2, hk2, heq, hb, hle⟩ :=
        ih (sbs / 2) hlt ⟨k - 1, by omega, hdiv, by omega⟩
      exact ⟨k2, hk2, heq, hb, le_trans hle (Nat.le_of_lt hlt)⟩
    · exact ⟨k, hk11, hpow, h64, le_refl sbs⟩

/-- Claim C6: after finalization, the stored `seq_block_size` is a
power-of-two divisor of 2048 with `64 ≤ seq_block_size ≤ 2048` (it is
produced by the halving descent from the seed 2048), and `num_seq_blocks`
is the ceiling of the maximum GPU-decode sequence length divided by
`seq_block_size`. -/
theorem seq_block_size_props (b : SubBatch) (cfg : LlamaModelConfig)
    (f : FinalizedBatch) (h : b.set_model_forward_args cfg = Except.ok f) :
    64 ≤ f.seq_block_size ∧ f.seq_block_size ≤ 2048 ∧
    f.seq_block_size ∣ 2048 ∧ (∃ k, f.seq_block_size = 2 ^ k) ∧
    f.num_seq_blocks =
      ((b.gdec_reqs.map (fun req => req.seq_len)).foldr max 0) ⌈/⌉ f.seq_block_size := by
  simp only [SubBatch.set_model_forward_args] at h
  split at h
  · injection h with h
    subst h
    obtain ⟨k, hk11, heq, hb64, hle⟩ :=
      adapt_result_bounds cfg.num_kv_heads
        (((Request.get_lens (b.cprf_reqs ++ b.gprf_reqs ++ b.gdec_reqs ++ b.cdec_reqs)).drop
            (b.cprf_reqs.length + b.gprf_reqs.length)).take b.gdec_reqs.length).sum
        ((((Request.get_lens (b.cprf_reqs ++ b.gprf_reqs ++ b.gdec_reqs ++ b.cdec_reqs)).drop
            (b.cprf_reqs.length + b.gprf_reqs.length)).take b.gdec_reqs.length).foldr max 0)
        2048 ⟨11, le_refl 11, by norm_num, by norm_num⟩
    refine ⟨hb64, le_trans hle (by norm_num), ?_, ⟨k, heq⟩, ?_⟩
    · rw [heq, show (2048 : Nat) = 2 ^ 11 by norm_num]
      exact pow_dvd_pow 2 hk11
    · rw [Nat.ceilDiv_eq_add_pred_div, gdec_slice b]
  · exact absurd h (by simp)

/-- Claim C6, witness: a concrete finalized `SubBatch` with one GPU-decode
request satisfies the block-size bounds. -/
theorem seq_block_size_props_witness :
    ∃ f, ((SubBatch.init ZeroPerfPredictor).add_gdec reqD).set_model_forward_args ⟨8⟩ =
        Except.ok f ∧ 64 ≤ f.seq_block_size ∧ f.seq_block_size ≤ 2048 := by
  obtain ⟨f, hf⟩ : ∃ f,
      ((SubBatch.init ZeroPerfPredictor).add_gdec reqD).set_model_forward_args ⟨8⟩ =
        Except.ok f := ⟨_, rfl⟩
  have hp := seq_block_size_props _ _ _ hf
  exact ⟨f, hf, hp.1, hp.2.1⟩

/-- `BatchPerfData` states reachable from a fresh accumulator through the
exposed add/pop operations, with every pop paired to a prior unmatched add
in stack order; `ps` and `cs` are the stacks of pending prefill prompt
lengths and pending CPU-decode sequence lengths. -/
inductive BPReach (p : PerfPredictor) : BatchPerfData → List Int → List Int → Prop where
  | init : BPReach p (BatchPerfData.init p) [] []
  | add_pref (l : Int) {d : BatchPerfData} {ps cs : List Int} :
      BPReach p d ps cs → BPReach p (d.add_pref l) (l :: ps) cs
  | pop_pref {l : Int} {d : BatchPerfData} {ps cs : List Int} :
      BPReach p d (l :: ps) cs → BPReach p (d.pop_pref l) ps cs
  | add_gdec (l : Int) {d : BatchPerfData} {ps cs : List Int} :
      BPReach p d ps cs → BPReach p (d.add_gdec l) ps cs
  | add_cdec (l : Int) {d : BatchPerfData} {ps cs : List Int} :
      BPReach p d ps cs → BPReach p (d.add_cdec l) ps (l :: cs)
  | pop_cdec {l : Int} {d : BatchPerfData} {ps cs : List Int} :
      BPReach p d ps (l :: cs) → BPReach p (d.pop_cdec l) ps cs

lemma BPReach_inv {p : PerfPredictor} {d : BatchPerfData} {ps cs : List Int}
    (h : BPReach p d ps cs) :
    d.predictor = p ∧ d.pref_T = (ps.map p.get_pref_T).sum ∧
    (d.gdec_T = 0 ∨ d.gdec_T = p.get_gdec_T d.n_g) ∧ d.lnch_T = p.get_lnch_T := by
  induction h with
  | init => simp [BatchPerfData.init]
  | add_pref l hr ih =>
    obtain ⟨hp, hT, hg, hl⟩ := ih
    refine ⟨hp, ?_, ?_, hl⟩
    · simp [BatchPerfData.add_pref, hp, hT]
      ring
    · simpa [BatchPerfData.add_pref] using hg
  | pop_pref hr ih =>
    obtain ⟨hp, hT, hg, hl⟩ := ih
    refine ⟨hp, ?_, ?_, hl⟩
    · simp [BatchPerfData.pop_pref, hp, hT]
    · simpa [BatchPerfData.pop_pref] using hg
  | add_gdec l hr ih =>
    obtain ⟨hp, hT, hg, hl⟩ := ih
    exact ⟨hp, by simpa [BatchPerfData.add_gdec] using hT,
      Or.inr (by simp [BatchPerfData.add_gdec, hp]), hl⟩
  | add_cdec l hr ih =>
    obtain ⟨hp, hT, hg, hl⟩ := ih
    exact ⟨hp, by simpa [BatchPerfData.add_cdec] using hT,
      by simpa [BatchPerfData.add_cdec] using hg, hl⟩
  | pop_cdec hr ih =>
    obtain ⟨hp, hT, hg, hl⟩ := ih
    exact ⟨hp, by simpa [BatchPerfData.pop_cdec] using hT,
      by simpa [BatchPerfData.pop_cdec] using hg, hl⟩

/-- Claim C7: for every `BatchPerfData` state reachable from a fresh
instance via the exposed add/pop operations (pops paired with prior adds
in stack order), if the predictor returns non-negative values for every
query then the derived `gpu_time` and `cpu_time` are non-negative. -/
theorem gpu_cpu_time_nonneg (p : PerfPredictor)
    (hpref : ∀ l, 0 ≤ p.get_pref_T l) (hgdec : ∀ n, 0 ≤ p.get_gdec_T n)
    (hlinr : ∀ s, 0 ≤ p.get_linr_T s) (hcdec : ∀ xc nc, 0 ≤ p.get_cdec_T xc nc)
    (hlnch : 0 ≤ p.get_lnch_T) (d : BatchPerfData) (ps cs : List Int)
    (h : BPReach p d ps cs) : 0 ≤ d.gpu_time ∧ 0 ≤ d.cpu_time := by
  obtain ⟨hp, hT, hg, hl⟩ := BPReach_inv h
  constructor
  · have h1 : 0 ≤ d.linr_T := by
      unfold BatchPerfData.linr_T
      rw [hp]
      exact hlinr _
    have h2 : 0 ≤ d.pref_T := by
      rw [hT]
      refine List.sum_nonneg ?_
      intro x hx
      obtain ⟨l, -, rfl⟩ := List.mem_map.mp hx
      exact hpref l
    have h3 : 0 ≤ d.gdec_T := by
      rcases hg with hg | hg
      · rw [hg]
      · rw [hg]
        exact hgdec _
    exact add_nonneg (add_nonneg h1 h2) h3
  · have h1 : 0 ≤ d.cdec_T := by
      unfold BatchPerfData.cdec_T
      rw [hp]
      exact hcdec _ _
    have h2 : 0 ≤ d.lnch_T := by
      rw [hl]
      exact hlnch
    exact add_nonneg h1 h2

/-- Claim C7, witness: with the zero predictor (all queries return 0), a
concrete reachable state (one prefill add, one CPU-decode add) has
non-negative `gpu_time` and `cpu_time`. -/
theorem gpu_cpu_time_nonneg_witness :
    0 ≤ (((BatchPerfData.init ZeroPerfPredictor).add_pref 3).add_cdec 6).gpu_time ∧
    0 ≤ (((BatchPerfData.init ZeroPerfPredictor).add_pref 3).add_cdec 6).cpu_time :=
  gpu_cpu_time_nonneg ZeroPerfPredictor (fun _ => le_refl 0) (fun _ => le_refl 0)
    (fun _ => le_refl 0) (fun _ _ => le_refl 0) (le_refl 0) _ _ _
    (BPReach.add_cdec 6 (BPReach.add_pref 3 BPReach.init))

lemma update_one_spec (r : Request) (tok : Int) :
    (r.update_one tok).output_len = r.output_len + 1 ∧
    (r.update_one tok).output_token_ids = r.output_token_ids ++ [tok] ∧
    (r.update_one tok).output_q = r.output_q ++ [tok] ∧
    (r.update_one tok).max_output_len = r.max_output_len ∧
    ((r.update_one tok).is_finished = true ↔
      r.output_len + 1 = r.max_output_len) ∧
    (r.update_one tok).finished_event =
      (r.finished_event || (r.update_one tok).is_finished) := by
  simp only [Request.update_one]
  split
  · rename_i hfin
    simp_all [Request.is_finished]
  · rename_i hfin
    simp_all [Request.is_finished]

lemma update_output_ok (reqs : List Request) (toks : List Int)
    (hlen : reqs.length = toks.length) :
    Request.update_output reqs toks =
      Except.ok ((reqs.zip toks).map (fun rt => rt.1.update_one rt.2),
        ((reqs.zip toks).map (fun rt => rt.1.update_one rt.2)).filter
          (fun req => req.is_finished)) := by
  unfold Request.update_output
  rw [if_pos hlen]

lemma update_output_getElem (reqs : List Request) (toks : List Int)
    (hlen : reqs.length = toks.length) (i : Nat) (hi : i < reqs.length) :
    ∃ (hu : i < ((reqs.zip toks).map (fun rt => rt.1.update_one rt.2)).length)
      (ht : i < toks.length),
      ((reqs.zip toks).map (fun rt => rt.1.update_one rt.2)).get ⟨i, hu⟩ =
        (reqs.get ⟨i, hi⟩).update_one (toks.get ⟨i, ht⟩) := by
  have ht : i < toks.length := hlen ▸ hi
  have hz : i < (reqs.zip toks).length := by
    rw [List.length_zip]
    omega
  have hu : i < ((reqs.zip toks).map (fun rt => rt.1.update_one rt.2)).length := by
    rw [List.length_map]
    exact hz
  refine ⟨hu, ht, ?_⟩
  simp [List.get_eq_getElem, List.getElem_map, List.getElem_zip]

/-- Claim C4: `update_output` on N non-finished requests and N token ids
increments each `output_len` by exactly 1, appends exactly one token id to
`output_token_ids`, enqueues it on the request's output channel, sets the
completion signal exactly for the requests reaching
`output_len == max_output_len`, and returns the ordered sub-sequence of
requests that became finished. -/
theorem update_output_spec (reqs : List Request) (toks : List Int)
    (hlen : reqs.length = toks.length)
    (_hnf : ∀ r ∈ reqs, r.output_len < r.max_output_len) :
    ∃ upd fin, Request.update_output reqs toks = Except.ok (upd, fin) ∧
      upd.length = reqs.length ∧
      (∀ i (hi : i < reqs.length), ∃ (hu : i < upd.length) (ht : i < toks.length),
        (upd.get ⟨i, hu⟩).output_len = (reqs.get ⟨i, hi⟩).output_len + 1 ∧
        (upd.get ⟨i, hu⟩).output_token_ids =
          (reqs.get ⟨i, hi⟩).output_token_ids ++ [toks.get ⟨i, ht⟩] ∧
        (upd.get ⟨i, hu⟩).output_q =
          (reqs.get ⟨i, hi⟩).output_q ++ [toks.get ⟨i, ht⟩] ∧
        (upd.get ⟨i, hu⟩).max_output_len = (reqs.get ⟨i, hi⟩).max_output_len ∧
        ((upd.get ⟨i, hu⟩).is_finished = true ↔
          (reqs.get ⟨i, hi⟩).output_len + 1 = (reqs.get ⟨i, hi⟩).max_output_len) ∧
        (upd.get ⟨i, hu⟩).finished_event =
          ((reqs.get ⟨i, hi⟩).finished_event || (upd.get ⟨i, hu⟩).is_finished)) ∧
      fin = upd.filter (fun req => req.is_finished) := by
  refine ⟨_, _, update_output_ok reqs toks hlen, ?_, ?_, rfl⟩
  · rw [List.length_map, List.length_zip]
    omega
  · intro i hi
    obtain ⟨hu, ht, hget⟩ := update_output_getElem reqs toks hlen i hi
    obtain ⟨h1, h2, h3, h4, h5, h6⟩ := update_one_spec (reqs.get ⟨i, hi⟩) (toks.get ⟨i, ht⟩)
    exact ⟨hu, ht, hget ▸ h1, hget ▸ h2, hget ▸ h3, hget ▸ h4, hget ▸ h5, hget ▸ h6⟩

/-- Claim C4, witness: one decode-phase request and one token. -/
theorem update_output_spec_witness :
    ∃ upd fin, Request.update_output [reqD] [43] = Except.ok (upd, fin) ∧
      upd.length = 1 := by
  obtain ⟨upd, fin, hok, hl, -, -⟩ :=
    update_output_spec [reqD] [43] rfl (by decide)
  exact ⟨upd, fin, hok, hl⟩

/-- Claim C8: `update_output` fails exactly when the request list and the
token list differ in length; in the source the length assertion precedes
the mutation loop, so a failing call has mutated no request (the embedded
error result accordingly carries no updated state). -/
theorem update_output_error_iff (reqs : List Request) (toks : List Int) :
    (∃ e, Request.update_output reqs toks = Except.error e) ↔
      reqs.length ≠ toks.length := by
  unfold Request.update_output
  by_cases h : reqs.length = toks.length
  · rw [if_pos h]
    simp [h]
  · rw [if_neg h]
    simp [h]

/-- Claim C10: a request already at `output_len == max_output_len` that is
included in a further `update_output` call is advanced to
`max_output_len + 1`; afterwards `is_finished()` is false and the request
is not in the returned finished list — finishing is detected only at exact
equality, with no guard against advancing past the limit. -/
theorem update_past_finished (reqs : List Request) (toks : List Int) (i : Nat)
    (hi : i < reqs.length) (hlen : reqs.length = toks.length)
    (hfin : (reqs.get ⟨i, hi⟩).output_len = (reqs.get ⟨i, hi⟩).max_output_len) :
    ∃ upd fin, Request.update_output reqs toks = Except.ok (upd, fin) ∧
      ∃ hu : i < upd.length,
        (upd.get ⟨i, hu⟩).output_len = (reqs.get ⟨i, hi⟩).max_output_len + 1 ∧
        (upd.get ⟨i, hu⟩).is_finished = false ∧
        (upd.get ⟨i, hu⟩) ∉ fin := by
  refine ⟨_, _, update_output_ok reqs toks hlen, ?_⟩
  obtain ⟨hu, ht, hget⟩ := update_output_getElem reqs toks hlen i hi
  obtain ⟨h1, -, -, h4, h5, -⟩ := update_one_spec (reqs.get ⟨i, hi⟩) (toks.get ⟨i, ht⟩)
  have hnf : (((reqs.zip toks).map
      (fun rt : Request × Int => rt.1.update_one rt.2)).get ⟨i, hu⟩).is_finished = false := by
    rw [hget]
    rw [Bool.eq_false_iff]
    intro hc
    have := h5.mp hc
    omega
  refine ⟨hu, ?_, hnf, ?_⟩
  · rw [hget, h1, hfin]
  · intro hmem
    have := List.of_mem_filter hmem
    rw [hnf] at this
    exact absurd this (by simp)

/-- Claim C10, witness: a request with `output_len = max_output_len = 2`
is advanced to 3 and is not reported finished. -/
theorem update_past_finished_witness :
    ∃ upd fin,
      Request.update_output
        [{ reqD with max_output_len := 2 }] [44] = Except.ok (upd, fin) ∧
      ∃ hu : 0 < upd.length,
        (upd.get ⟨0, hu⟩).output_len = 3 ∧
        (upd.get ⟨0, hu⟩).is_finished = false := by
  obtain ⟨upd, fin, hok, hu, h1, h2, -⟩ :=
    update_past_finished [{ reqD with max_output_len := 2 }] [44] 0
      (by decide) rfl (by decide)
  exact ⟨upd, fin, hok, hu, h1, h2⟩

lemma drop_length_sub_one {α : Type} {l : List α} {a : α}
    (h : l.getLast? = some a) : l.drop (l.length - 1) = [a] := by
  have hsplit := List.dropLast_append_getLast? a h
  rw [← hsplit, List.length_append, List.length_dropLast]
  rcases l with - | ⟨x, xs⟩
  · simp at h
  · simp [List.drop_left']

/-- Claim C9 (amended): the serialization view carries the full
`prompt_token_ids` exactly when `output_len = 0` and otherwise only the
most recently generated output token id, plus `prompt_len`, `output_len`
and `request_id`; `__setstate__` restores exactly those five fields, so
the reconstruction preserves the counters, the id, and the input tokens of
the next forward pass (`get_input_tokens`), while `max_output_len`, the
output queue and the completion event are left to the deserialization
target (they are not part of the view), so a subsequent `update_output`
is not in general guaranteed to behave as on the original. -/
theorem getstate_view_spec (r base : Request)
    (hlen : r.output_token_ids.length = r.output_len) :
    ((r.output_len = 0 →
        (r.getstate).prompt_token_ids = r.prompt_token_ids ∧
        (r.getstate).output_token_ids = []) ∧
      (0 < r.output_len →
        (r.getstate).prompt_token_ids = [] ∧
        ∃ h : r.output_token_ids ≠ [],
          (r.getstate).output_token_ids = [r.output_token_ids.getLast h]) ∧
      (r.getstate).prompt_len = r.prompt_len ∧
      (r.getstate).output_len = r.output_len ∧
      (r.getstate).request_id = r.request_id) ∧
    ((Request.setstate base (r.getstate)).prompt_len = r.prompt_len ∧
      (Request.setstate base (r.getstate)).output_len = r.output_len ∧
      (Request.setstate base (r.getstate)).request_id = r.request_id ∧
      Request.get_input_tokens [Request.setstate base (r.getstate)] =
        Request.get_input_tokens [r] ∧
      (Request.setstate base (r.getstate)).max_output_len = base.max_output_len ∧
      (Request.setstate base (r.getstate)).output_q = base.output_q ∧
      (Request.setstate base (r.getstate)).finished_event = base.finished_event) := by
  constructor
  · refine ⟨?_, ?_, rfl, rfl, rfl⟩
    · intro h0
      simp [Request.getstate, h0]
    · intro hpos
      have hne : r.output_token_ids ≠ [] := by
        intro hc
        rw [hc] at hlen
        simp at hlen
        omega
      refine ⟨by simp [Request.getstate]; omega, hne, ?_⟩
      simp only [Request.getstate]
      rw [if_pos (by omega)]
      exact drop_length_sub_one (List.getLast?_eq_getLast r.output_token_ids hne)
  · refine ⟨rfl, rfl, rfl, ?_, rfl, rfl, rfl⟩
    by_cases h0 : r.output_len = 0
    · simp [Request.get_input_tokens, Request.setstate, Request.getstate, h0]
    · have hne : r.output_token_ids ≠ [] := by
        intro hc
        rw [hc] at hlen
        simp at hlen
        omega
      have hone := drop_length_sub_one (List.getLast?_eq_getLast r.output_token_ids hne)
      have hpos : 0 < r.output_len := Nat.pos_of_ne_zero h0
      simp [Request.get_input_tokens, Request.setstate, Request.getstate, h0, hpos, hone]

/-- Claim C9, witness: the decode-phase request `reqD` round-trips its
counters and forward-pass input tokens through the view. -/
theorem getstate_view_spec_witness :
    (Request.getstate reqD).prompt_token_ids = [] ∧
    Request.get_input_tokens [Request.setstate reqD (Request.getstate reqD)] =
      Request.get_input_tokens [reqD] := by
  have h := getstate_view_spec reqD reqD rfl
  exact ⟨(h.1.2.1 (by decide)).1, h.2.2.2.2.1⟩

/-- A fresh request with `max_output_len = 1` (nothing generated yet). -/
def reqS1 : Request :=
  { prompt_token_ids := [7], prompt_len := 1, output_len := 0
    max_output_len := 1, output_q := [], finished_event := false
    request_id := 4, output_token_ids := [] }

/-- Like `reqS1` but with `max_output_len = 2`. -/
def reqS2 : Request :=
  { reqS1 with max_output_len := 2 }

/-- Claim C9, counterexample: `reqS1` and `reqS2` differ only in
`max_output_len` and have identical serialization views, yet
`update_output` finishes `reqS1` (one newly finished request) and not
`reqS2` (none); the view does not determine `max_output_len`, so no
reconstruction from the view can make a subsequent `update_output` behave
as on the original — concretely, reconstructing `reqS1` into a target
left over with `max_output_len = 2` yields no finished request where the
original yields one. -/
theorem getstate_roundtrip_cex :
    Request.getstate reqS1 = Request.getstate reqS2 ∧
    (Request.update_output [reqS1] [9]).map (fun pr => pr.2.length) = Except.ok 1 ∧
    (Request.update_output [reqS2] [9]).map (fun pr => pr.2.length) = Except.ok 0 ∧
    (Request.update_output [Request.setstate reqS2 (Request.getstate reqS1)] [9]).map
      (fun pr => pr.2.length) = Except.ok 0 := by
  refine ⟨rfl, rfl, rfl, rfl⟩

end SwiftLLM
